import Mathlib

/-!
Verification of the games-catalog reconciliation and pagination engine of the
pika-casino-lobby repository.

The embedding is shallow: each TypeScript function relevant to the checked
claims is translated into a computable Lean definition.

Modelling conventions, used throughout:
* Upstream JSON-ish values (`unknown` in the source) are modelled by `JVal`:
  strings, numbers (as `Int`; none of the checked logic depends on float
  behaviour), booleans, `null`, `undefined`, and objects as association lists.
  JavaScript objects have unique keys, so lookup takes the first match.
* JavaScript truthiness, `String(x)` coercion and the `a || b` operator are
  modelled explicitly (`truthy`, `jstr`, `jsOr`).
* `Math.random()` appears once (the fallback game id); it is made an explicit
  parameter `rnd` of the normalizer.
* Endpoint path strings are modelled as `List Char`; `String.prototype.includes`
  and `startsWith` become `containsSeq` and `List.isPrefixOf`.
* Page numbers and sizes are `Nat`; the store invariant `pageNumber ≥ 1`
  (initial state is 1 and the UI dispatches 1-based pages) lets `Nat`
  subtraction coincide with JavaScript arithmetic in the slice computations.
-/

/-- JavaScript-like values for raw upstream items (`unknown` in the source). -/
inductive JVal where
  | vstr : String → JVal
  | vnum : Int → JVal
  | vbool : Bool → JVal
  | vnull : JVal
  | vundefined : JVal
  | vobj : List (String × JVal) → JVal

/-- An object: association list of fields, unique keys, insertion order. -/
abbrev JObj := List (String × JVal)

/-- Field access `o[k]`; an absent key reads as `undefined`, as in JavaScript. -/
def rget : JObj → String → JVal
  | [], _ => .vundefined
  | (k, v) :: rest, key => if k = key then v else rget rest key

/-- Own-key test, `Object.prototype.hasOwnProperty` / spread membership. -/
def hasKey : JObj → String → Bool
  | [], _ => false
  | (k, _) :: rest, key => k = key || hasKey rest key

/-- JavaScript truthiness of a value. -/
def truthy : JVal → Bool
  | .vstr s => s ≠ ""
  | .vnum n => n ≠ 0
  | .vbool b => b
  | .vnull => false
  | .vundefined => false
  | .vobj _ => true

/-- The JavaScript `String(x)` coercion for the values we model
(plain objects stringify to "[object Object]"). -/
def jstr : JVal → String
  | .vstr s => s
  | .vnum n => toString n
  | .vbool b => if b then "true" else "false"
  | .vnull => "null"
  | .vundefined => "undefined"
  | .vobj _ => "[object Object]"

/-- The JavaScript `a || b` operator on values. -/
def jsOr (a b : JVal) : JVal := if truthy a then a else b

/-- The JavaScript test `typeof x === 'string'`. -/
def typeofString : JVal → Bool
  | .vstr _ => true
  | _ => false

/-- src/services/api.ts lines 349-362: resolve the `thumbnail` field.
A truthy string wins; a (truthy) object is probed `url`/`original`/`small`/
`thumbnail`; anything else yields the empty string. -/
def thumbCandidate (o : JObj) : String :=
  match rget o "thumbnail" with
  | .vstr s => if s ≠ "" then s else ""
  | .vobj f =>
      jstr (jsOr (rget f "url") (jsOr (rget f "original")
        (jsOr (rget f "small") (jsOr (rget f "thumbnail") (.vstr "")))))
  | _ => ""

/-- src/services/api.ts lines 365-403: resolve the `image` field, used when the
`thumbnail` field produced nothing.  A string is taken as-is (even empty, with
no truthiness check in the source); an object is probed `original`, `small`,
`thumbnail` (each as object or string), finally the flat keys. -/
def imageCandidate (o : JObj) : String :=
  match rget o "image" with
  | .vstr s => s
  | .vobj f =>
      match rget f "original" with
      | .vobj g =>
          jstr (jsOr (rget g "url") (jsOr (rget g "src")
            (jsOr (rget g "original") (.vstr ""))))
      | .vstr s => s
      | _ =>
        match rget f "small" with
        | .vobj g =>
            jstr (jsOr (rget g "url") (jsOr (rget g "src")
              (jsOr (rget g "small") (.vstr ""))))
        | .vstr s => s
        | _ =>
          match rget f "thumbnail" with
          | .vobj g =>
              jstr (jsOr (rget g "url") (jsOr (rget g "src")
                (jsOr (rget g "thumbnail") (.vstr ""))))
          | .vstr s => s
          | _ =>
              jstr (jsOr (rget f "url") (jsOr (rget f "src")
                (jsOr (rget f "original") (jsOr (rget f "small")
                  (jsOr (rget f "thumbnail") (.vstr ""))))))
  | _ => ""

/-- src/services/api.ts lines 406-412: the `providerLogo.original.{src|url}`
fallback, consulted when both `thumbnail` and `image` produced nothing. -/
def plCandidate (o : JObj) : String :=
  match rget o "providerLogo" with
  | .vobj f =>
      match rget f "original" with
      | .vobj g => jstr (jsOr (rget g "src") (jsOr (rget g "url") (.vstr "")))
      | _ => ""
  | _ => ""

/-- src/services/api.ts lines 347-412 combined: the resolved thumbnail before
URL validation (thumbnail field, then image field, then providerLogo). -/
def resolveThumbRaw (o : JObj) : String :=
  let t1 := thumbCandidate o
  let t2 := if t1 = "" then imageCandidate o else t1
  if t2 = "" then plCandidate o else t2

/-- JavaScript `s.startsWith(pre)`, computed on the character sequence. -/
def jsStartsWith (s pre : String) : Bool := pre.toList.isPrefixOf s.toList

/-- src/services/api.ts lines 415-422: a non-empty resolved thumbnail that
starts with neither "http" nor "/" is cleared to the empty string. -/
def validateThumb (s : String) : String :=
  if s ≠ "" && !(jsStartsWith s "http") && !(jsStartsWith s "/") then "" else s

/-- src/services/api.ts lines 333-338: `String(id || platformId || slug ||
Math.random())`, the random number passed in as `rnd`. -/
def gameIdOf (rnd : JVal) (o : JObj) : String :=
  jstr (jsOr (rget o "id") (jsOr (rget o "platformId") (jsOr (rget o "slug") rnd)))

/-- src/services/api.ts lines 339-344: `String(name || gameText || title ||
'Unknown Game')`. -/
def gameNameOf (o : JObj) : String :=
  jstr (jsOr (rget o "name") (jsOr (rget o "gameText")
    (jsOr (rget o "title") (.vstr "Unknown Game"))))

/-- src/services/api.ts lines 424-426: provider is the `provider` field when it
is a string, else the `providerName` field when that is a string, else
`undefined`. -/
def gameProviderOf (o : JObj) : JVal :=
  match rget o "provider" with
  | .vstr s => .vstr s
  | _ =>
    match rget o "providerName" with
    | .vstr s => .vstr s
    | _ => .vundefined

/-- The rest spread `const { image: _image, thumbnail: _thumbnail, ...restGame }`
of src/services/api.ts line 430. -/
def restOf (o : JObj) : JObj :=
  o.filter (fun kv => kv.1 ≠ "image" && kv.1 ≠ "thumbnail")

/-- src/services/api.ts lines 330-439: the response normalizer for one raw
item.  The returned object literal is
`{ id, name, thumbnail, provider, ...restGame }`: the four computed fields are
written first, then the spread overwrites `id`/`name`/`provider` with the raw
values whenever the raw item carried those keys (`thumbnail` and `image` were
removed from the spread).  Enumeration order of the result follows JavaScript:
the four literal keys first, then the remaining raw keys in order. -/
def normalizeGame (rnd : JVal) (o : JObj) : JObj :=
  let rest := restOf o
  ("id", if hasKey rest "id" then rget rest "id" else .vstr (gameIdOf rnd o)) ::
  ("name", if hasKey rest "name" then rget rest "name" else .vstr (gameNameOf o)) ::
  ("thumbnail", .vstr (validateThumb (resolveThumbRaw o))) ::
  ("provider", if hasKey rest "provider" then rget rest "provider" else gameProviderOf o) ::
  rest.filter (fun kv => kv.1 ≠ "id" && kv.1 ≠ "name" && kv.1 ≠ "provider")

/-- The thumbnail field of a normalized record, as a string. -/
def getThumbStr (o : JObj) : String :=
  match rget o "thumbnail" with
  | .vstr s => s
  | _ => ""

/-- JavaScript `hay.includes(needle)` on character sequences. -/
def containsSeq (needle : List Char) : List Char → Bool
  | [] => needle.isEmpty
  | hay@(_ :: rest) => needle.isPrefixOf hay || containsSeq needle rest

/-- Drop characters up to (but not including) the first slash. -/
def dropUntilSlash : List Char → List Char
  | [] => []
  | c :: rest => if c = '/' then c :: rest else dropUntilSlash rest

/-- The pathname of an absolute http(s) URL, modelling `new URL(s).pathname`
for well-formed URLs: strip the scheme, skip the authority up to the first
slash, cut at a query or fragment, and default to "/". -/
def urlPathname (s : List Char) : List Char :=
  let afterScheme := if ("https://".toList).isPrefixOf s then s.drop 8 else s.drop 7
  let p := (dropUntilSlash afterScheme).takeWhile (fun c => c ≠ '?' && c ≠ '#')
  if p.isEmpty then "/".toList else p

/-- src/services/api.ts lines 196-217: extract the category path from a
getPage reference (pathname of a full URL, a leading slash is added to a bare
slug) and rewrite it: the lobby aliases "/casino" and "/pages/en/casino" become
"/en/games/tiles", and a path under neither "/pages/en" nor "/en/games/tiles"
is prefixed with "/pages/en". -/
def resolveCategoryPath (getPageUrl : List Char) : List Char :=
  let categoryPath :=
    if ("http://".toList).isPrefixOf getPageUrl ||
        ("https://".toList).isPrefixOf getPageUrl then
      urlPathname getPageUrl
    else if !(("/".toList).isPrefixOf getPageUrl) then
      '/' :: getPageUrl
    else getPageUrl
  if categoryPath == "/casino".toList || categoryPath == "/pages/en/casino".toList then
    "/en/games/tiles".toList
  else if !(("/pages/en".toList).isPrefixOf categoryPath) &&
      !(("/en/games/tiles".toList).isPrefixOf categoryPath) then
    "/pages/en".toList ++ categoryPath
  else categoryPath

/-- src/services/api.ts lines 228-230: pagination support is decided on the
resolved category path. -/
def supportsPagination (getPageUrl : List Char) : Bool :=
  let categoryPath := resolveCategoryPath getPageUrl
  containsSeq ("/en/games/tiles".toList) categoryPath ||
    categoryPath == "/casino".toList || categoryPath == "/pages/en/casino".toList

/-- src/store/slices/gamesSlice.ts lines 216-218: search support is decided on
the raw getPage reference. -/
def supportsSearch (getPageUrl : List Char) : Bool :=
  containsSeq ("/en/games/tiles".toList) getPageUrl ||
    getPageUrl == "/casino".toList || getPageUrl == "/pages/en/casino".toList

/-- The JavaScript `a || b` operator for an optional number (an absent or zero
value falls back). -/
def jsOrNat (o : Option Nat) (d : Nat) : Nat :=
  match o with
  | some n => if n = 0 then d else n
  | none => d

/-- The JavaScript `a || b` operator for numbers (zero falls back). -/
def jsOrNat0 (n d : Nat) : Nat := if n = 0 then d else n

/-- The JavaScript `a || b` operator for an optional string. -/
def jsOrStr (o : Option String) (d : String) : String :=
  match o with
  | some s => if s = "" then d else s
  | none => d

/-- The JavaScript `a || b` operator for strings (the empty string falls back). -/
def jsOrStr0 (s d : String) : String := if s = "" then d else s

/-- JavaScript `s.trim()`: strip whitespace from both ends, computed on the
character sequence. -/
def jsTrim (s : String) : String :=
  ⟨(((s.toList.dropWhile (fun c => c.isWhitespace)).reverse.dropWhile
    (fun c => c.isWhitespace)).reverse)⟩

/-- JavaScript `s.toLowerCase()`, computed on the character sequence. -/
def jsToLower (s : String) : String := ⟨s.toList.map Char.toLower⟩

/-- JavaScript `hay.includes(needle)` on strings. -/
def jsIncludesStr (hay needle : String) : Bool := containsSeq needle.toList hay.toList

/-- The normalized `GameTile` record shape of src/types (the fields the store
and selectors read). -/
structure GameTile where
  id : String
  name : String
  thumbnail : String
  provider : Option String
deriving DecidableEq

/-- The games slice state, src/store/slices/gamesSlice.ts lines 32-40. -/
structure GamesState where
  items : List GameTile
  loading : Bool
  error : Option String
  searchQuery : String
  pageNumber : Nat
  pageSize : Nat
  totalCount : Nat
deriving DecidableEq

/-- src/store/slices/gamesSlice.ts lines 126-134. -/
def initialGamesState : GamesState :=
  { items := [], loading := false, error := none, searchQuery := "",
    pageNumber := 1, pageSize := 10, totalCount := 0 }

/-- Payload of FETCH_GAMES_BY_CATEGORY_FULFILLED,
src/store/slices/gamesSlice.ts lines 94-103. -/
structure CategoryFulfilledPayload where
  games : List GameTile
  totalCount : Nat
  pageNumber : Nat
  pageSize : Nat
  requestedPageSize : Nat
deriving DecidableEq

/-- The actions of the games slice, src/store/slices/gamesSlice.ts
lines 14-123. -/
inductive GamesAction where
  | setSearchQuery (query : String)
  | setPageNumber (n : Nat)
  | setPageSize (n : Nat)
  | increasePageSize (inc : Nat)
  | clearGames
  | clearError
  | fetchGamesPending
  | fetchGamesFulfilled (games : List GameTile) (totalCount pageNumber pageSize : Nat)
  | fetchGamesRejected (msg : String)
  | fetchCategoryPending
  | fetchCategoryFulfilled (p : CategoryFulfilledPayload)
  | fetchCategoryRejected (msg : String)

/-- src/store/slices/gamesSlice.ts lines 262-382: the plain-Redux games
reducer.  FETCH_GAMES_BY_CATEGORY_FULFILLED replaces the items wholesale and
resets the page number to 1. -/
def gamesReducer (state : GamesState) (action : GamesAction) : GamesState :=
  match action with
  | .setSearchQuery query =>
      { state with searchQuery := query, pageNumber := 1, items := [] }
  | .setPageNumber n => { state with pageNumber := n }
  | .setPageSize n => { state with pageSize := n, pageNumber := 1 }
  | .increasePageSize inc =>
      { state with pageSize := state.pageSize + jsOrNat0 inc 20 }
  | .clearGames => { state with items := [], totalCount := 0 }
  | .clearError => { state with error := none }
  | .fetchGamesPending => { state with loading := true, error := none }
  | .fetchGamesFulfilled games totalCount pageNumber pageSize =>
      { state with
        loading := false
        items := games
        totalCount := jsOrNat0 totalCount 0
        pageNumber := jsOrNat0 pageNumber state.pageNumber
        pageSize := jsOrNat0 pageSize state.pageSize }
  | .fetchGamesRejected msg => { state with loading := false, error := some msg }
  | .fetchCategoryPending => { state with loading := true, error := none }
  | .fetchCategoryFulfilled p =>
      { state with
        loading := false
        items := p.games
        totalCount := jsOrNat0 p.totalCount p.games.length
        pageNumber := 1
        pageSize := jsOrNat0 p.requestedPageSize state.pageSize }
  | .fetchCategoryRejected msg => { state with loading := false, error := some msg }

/-- src/unnamed/part_010 lines 144-149: the "load more" merge — append the new
games, dropping those whose id is already present in the current items. -/
def mergeLoadMore (items newGames : List GameTile) : List GameTile :=
  items ++ newGames.filter
    (fun g => !((items.map (fun x => x.id)).contains g.id))

/-- src/unnamed/part_010 lines 135-158: the Redux-Toolkit variant of the
category-fulfilled reducer.  The page size that was just requested
(`action.meta.arg.params?.pageSize`, falling back to the state's) is compared
with the state's: strictly larger appends with dedupe, otherwise the items are
replaced. -/
def categoryFulfilledToolkit (state : GamesState) (payloadGames : List GameTile)
    (payloadTotalCount payloadPageNumber : Nat) (metaPageSize : Option Nat) :
    GamesState :=
  let requestedPageSize := jsOrNat metaPageSize state.pageSize
  let items :=
    if requestedPageSize > state.pageSize then mergeLoadMore state.items payloadGames
    else payloadGames
  { state with
    loading := false
    items := items
    totalCount := jsOrNat0 payloadTotalCount 0
    pageNumber := jsOrNat0 payloadPageNumber state.pageNumber
    pageSize := requestedPageSize }

/-- The `GamesTilesParams` argument of the thunks (all fields optional). -/
structure GamesTilesParams where
  search : Option String
  pageNumber : Option Nat
  pageSize : Option Nat
deriving DecidableEq

/-- The query parameters the orchestrator sends to `fetchCategoryGames`
(src/store/slices/gamesSlice.ts lines 231-237). -/
structure FetchParams where
  pageNumber : Nat
  pageSize : Nat
  search : Option String
deriving DecidableEq

/-- The normalized response shape (`GamesTilesResponse`). -/
structure GamesTilesResponse where
  games : List GameTile
  totalCount : Nat
  pageNumber : Nat
  pageSize : Nat
deriving DecidableEq

/-- src/store/slices/gamesSlice.ts line 211: `params?.search ||
currentState.searchQuery || ''`. -/
def effectiveSearchQuery (params : GamesTilesParams) (state : GamesState) : String :=
  jsOrStr params.search (jsOrStr0 state.searchQuery "")

/-- src/store/slices/gamesSlice.ts line 220: `params?.pageSize ||
currentState.pageSize || 10`. -/
def basePageSizeOf (params : GamesTilesParams) (state : GamesState) : Nat :=
  jsOrNat params.pageSize (jsOrNat0 state.pageSize 10)

/-- src/store/slices/gamesSlice.ts lines 208-237: the orchestrator's request
construction.  With a non-empty trimmed search on an endpoint without search
support the page size is inflated to 200 and the search term is dropped;
otherwise the base page size is used and the search term passes through only
when supported.  The page number is `params?.pageNumber ||
currentState.pageNumber || 1` in every case. -/
def buildFetchParams (getPageUrl : List Char) (params : GamesTilesParams)
    (state : GamesState) : FetchParams :=
  let searchQuery := effectiveSearchQuery params state
  let hasSearch : Bool := decide (0 < (jsTrim searchQuery).length)
  let fetchPageSize :=
    if hasSearch && !(supportsSearch getPageUrl) then 200
    else basePageSizeOf params state
  { pageNumber := jsOrNat params.pageNumber (jsOrNat0 state.pageNumber 1),
    pageSize := fetchPageSize,
    search := if hasSearch && supportsSearch getPageUrl then some searchQuery else none }

/-- src/store/slices/gamesSlice.ts lines 205-258: one run of the
`fetchGamesByCategory` thunk, given the upstream response it receives.  It
dispatches PENDING, reads the state, builds the request, performs exactly one
`fetchCategoryGames` call (returned in the first component), and dispatches
FULFILLED.  There is no last-query key: nothing is conditional on any
previously dispatched query. -/
def runFetchGamesByCategory (getPageUrl : List Char) (params : GamesTilesParams)
    (state : GamesState) (resp : GamesTilesResponse) :
    List FetchParams × GamesState :=
  let s1 := gamesReducer state .fetchCategoryPending
  let fp := buildFetchParams getPageUrl params s1
  let payload : CategoryFulfilledPayload :=
    { games := resp.games,
      totalCount := jsOrNat0 resp.totalCount 0,
      pageNumber := jsOrNat0 resp.pageNumber fp.pageNumber,
      pageSize := jsOrNat0 resp.pageSize fp.pageSize,
      requestedPageSize := basePageSizeOf params s1 }
  ([fp], gamesReducer s1 (.fetchCategoryFulfilled payload))

/-- src/unnamed/part_007 lines 44-53: client-side search filtering of the
projector (case-insensitive substring match on the game name). -/
def filteredGamesOf (s : GamesState) : List GameTile :=
  if 0 < (jsTrim s.searchQuery).length then
    s.items.filter (fun g =>
      jsIncludesStr (jsToLower (jsOrStr0 g.name "")) (jsToLower (jsTrim s.searchQuery)))
  else s.items

/-- The projector's output record. -/
structure PaginationProjection where
  games : List GameTile
  totalCount : Nat
  pageSize : Nat
  pageNumber : Nat
  hasMore : Bool
  totalPages : Nat
deriving DecidableEq

/-- Ceiling division, JavaScript `Math.ceil(a / b)` for `b > 0`. -/
def jsCeilDiv (a b : Nat) : Nat := (a + b - 1) / b

/-- src/unnamed/part_007 lines 39-89: the pagination/filter projector
`selectGamesWithPagination`.  Client-side pagination is emulated exactly when
the number of (filtered) items on hand exceeds the page size, slicing
`[(pageNumber-1)*pageSize, (pageNumber-1)*pageSize + pageSize)`; otherwise the
items are returned unsliced.  With search active the reported total is the
filtered length, otherwise the state's totalCount. -/
def selectGamesWithPagination (s : GamesState) : PaginationProjection :=
  let hasSearch := 0 < (jsTrim s.searchQuery).length
  let filteredGames := filteredGamesOf s
  let filteredTotalCount := if hasSearch then filteredGames.length else s.totalCount
  let shouldUseClientPagination := filteredGames.length > s.pageSize
  let paginatedGames :=
    if shouldUseClientPagination then
      (filteredGames.drop ((s.pageNumber - 1) * s.pageSize)).take s.pageSize
    else filteredGames
  { games := paginatedGames,
    totalCount := filteredTotalCount,
    pageSize := s.pageSize,
    pageNumber := s.pageNumber,
    hasMore :=
      if shouldUseClientPagination then
        decide (s.pageNumber * s.pageSize < filteredTotalCount)
      else decide (s.pageNumber * s.pageSize < s.totalCount),
    totalPages := jsOrNat0 (jsCeilDiv filteredTotalCount s.pageSize) 1 }

/-- src/utils/retry.ts lines 30-55: the retry loop.  `attempt` is the current
attempt index, the second argument the number of retries still allowed.  The
returned list records the delays slept between attempts
(`min(initialDelay * 2^attempt, maxDelay)`); a failure with no retries left
propagates immediately with no further delay. -/
def retryGo {α : Type} (fn : Nat → Except String α) (initialDelay maxDelay : Nat) :
    Nat → Nat → Except String α × List Nat
  | attempt, 0 => (fn attempt, [])
  | attempt, remaining + 1 =>
    match fn attempt with
    | .ok a => (.ok a, [])
    | .error _ =>
      let d := min (initialDelay * 2 ^ attempt) maxDelay
      let r := retryGo fn initialDelay maxDelay (attempt + 1) remaining
      (r.1, d :: r.2)

/-- src/utils/retry.ts lines 17-59: `retryWithBackoff` — run `fn` with up to
`maxRetries` retries and exponential backoff.  The pair is the final outcome
and the delays slept. -/
def retryWithBackoff {α : Type} (fn : Nat → Except String α)
    (maxRetries initialDelay maxDelay : Nat) : Except String α × List Nat :=
  retryGo fn initialDelay maxDelay 0 maxRetries

theorem restOf_cons (a : String) (v : JVal) (t : JObj) :
    restOf ((a, v) :: t) =
      if a = "image" ∨ a = "thumbnail" then restOf t else (a, v) :: restOf t := by
  simp only [restOf, List.filter_cons]
  by_cases hai : a = "image" <;> by_cases hat : a = "thumbnail" <;> simp [hai, hat]

theorem hasKey_restOf (o : JObj) (k : String) (h1 : k ≠ "image") (h2 : k ≠ "thumbnail") :
    hasKey (restOf o) k = hasKey o k := by
  induction o with
  | nil => rfl
  | cons kv t ih =>
    obtain ⟨a, v⟩ := kv
    rw [restOf_cons]
    by_cases ha : a = "image" ∨ a = "thumbnail"
    · have hak : a ≠ k := by
        rcases ha with ha | ha <;> rw [ha] <;> exact fun hc => absurd hc.symm (by assumption)
      rw [if_pos ha]
      simp [hasKey, hak, ih]
    · rw [if_neg ha]
      simp [hasKey, ih]

theorem rget_restOf (o : JObj) (k : String) (h1 : k ≠ "image") (h2 : k ≠ "thumbnail") :
    rget (restOf o) k = rget o k := by
  induction o with
  | nil => rfl
  | cons kv t ih =>
    obtain ⟨a, v⟩ := kv
    rw [restOf_cons]
    by_cases ha : a = "image" ∨ a = "thumbnail"
    · have hak : a ≠ k := by
        rcases ha with ha | ha <;> rw [ha] <;> exact fun hc => absurd hc.symm (by assumption)
      rw [if_pos ha]
      simp [rget, hak, ih]
    · rw [if_neg ha]
      by_cases hak : a = k <;> simp [rget, hak, ih]

theorem rget_eq_vundefined (l : JObj) (k : String) (h : ∀ kv ∈ l, kv.1 ≠ k) :
    rget l k = .vundefined := by
  induction l with
  | nil => rfl
  | cons kv t ih =>
    have hk : kv.1 ≠ k := h kv (List.mem_cons_self _ _)
    obtain ⟨a, v⟩ := kv
    simp only [rget]
    rw [if_neg hk, ih]
    intro x hx
    exact h x (List.mem_cons_of_mem _ hx)

theorem validateThumb_spec (s : String) :
    validateThumb s = "" ∨ jsStartsWith (validateThumb s) "http" = true ∨
      jsStartsWith (validateThumb s) "/" = true := by
  unfold validateThumb
  by_cases h : (s ≠ "" && !(jsStartsWith s "http") && !(jsStartsWith s "/")) = true
  · rw [if_pos h]; exact Or.inl rfl
  · rw [if_neg h]
    simp only [Bool.and_eq_true, Bool.not_eq_true', decide_eq_true_eq, ne_eq,
      not_and_or, not_not, Decidable.not_not, Bool.not_eq_false] at h
    tauto

theorem validateThumb_idem (s : String) :
    validateThumb (validateThumb s) = validateThumb s := by
  unfold validateThumb
  by_cases h : (s ≠ "" && !(jsStartsWith s "http") && !(jsStartsWith s "/")) = true
  · rw [if_pos h]; simp
  · rw [if_neg h, if_neg h]

/-- A normalized record is a fixed point of the normalizer provided either its
thumbnail survived validation non-empty, or the providerLogo fallback would not
contribute a valid thumbnail on a second pass. -/
theorem normalizeGame_fixed (rnd A B P : JVal) (T : String) (tail : JObj)
    (htail : ∀ kv ∈ tail, kv.1 ≠ "id" ∧ kv.1 ≠ "name" ∧ kv.1 ≠ "thumbnail" ∧
      kv.1 ≠ "provider" ∧ kv.1 ≠ "image")
    (hT : validateThumb T = T)
    (hpl : T ≠ "" ∨ validateThumb (plCandidate
      (("id", A) :: ("name", B) :: ("thumbnail", .vstr T) :: ("provider", P) :: tail)) = "") :
    normalizeGame rnd
        (("id", A) :: ("name", B) :: ("thumbnail", .vstr T) :: ("provider", P) :: tail) =
      ("id", A) :: ("name", B) :: ("thumbnail", .vstr T) :: ("provider", P) :: tail := by
  have htt : restOf tail = tail := by
    refine List.filter_eq_self.mpr (fun kv hkv => ?_)
    obtain ⟨_, _, h3, _, h5⟩ := htail kv hkv
    simp [h3, h5]
  have hrest : restOf (("id", A) :: ("name", B) :: ("thumbnail", .vstr T) ::
      ("provider", P) :: tail) = ("id", A) :: ("name", B) :: ("provider", P) :: tail := by
    rw [restOf_cons, restOf_cons, restOf_cons, restOf_cons, htt]
    simp
  have himg : rget (("id", A) :: ("name", B) :: ("thumbnail", .vstr T) ::
      ("provider", P) :: tail) "image" = .vundefined := by
    refine rget_eq_vundefined _ _ (fun kv hkv => ?_)
    simp only [List.mem_cons] at hkv
    rcases hkv with h | h | h | h | h
    · subst h; simp
    · subst h; simp
    · subst h; simp
    · subst h; simp
    · exact (htail kv h).2.2.2.2
  have hthumb : rget (("id", A) :: ("name", B) :: ("thumbnail", .vstr T) ::
      ("provider", P) :: tail) "thumbnail" = .vstr T := rfl
  have hres : resolveThumbRaw (("id", A) :: ("name", B) :: ("thumbnail", .vstr T) ::
      ("provider", P) :: tail) =
      if T = "" then plCandidate (("id", A) :: ("name", B) :: ("thumbnail", .vstr T) ::
        ("provider", P) :: tail) else T := by
    unfold resolveThumbRaw
    have hc : thumbCandidate (("id", A) :: ("name", B) :: ("thumbnail", .vstr T) ::
        ("provider", P) :: tail) = T := by
      unfold thumbCandidate
      rw [hthumb]
      by_cases hT0 : T = "" <;> simp [hT0]
    rw [hc]
    have hi : imageCandidate (("id", A) :: ("name", B) :: ("thumbnail", .vstr T) ::
        ("provider", P) :: tail) = "" := by
      unfold imageCandidate
      rw [himg]
    by_cases hT0 : T = ""
    · subst hT0; simp [hi]
    · simp [hT0]
  have hthv : validateThumb (resolveThumbRaw (("id", A) :: ("name", B) ::
      ("thumbnail", .vstr T) :: ("provider", P) :: tail)) = T := by
    rw [hres]
    by_cases hT0 : T = ""
    · rw [if_pos hT0]
      rcases hpl with h | h
      · exact absurd hT0 h
      · rw [h, hT0]
    · rw [if_neg hT0, hT]
  show ("id", if hasKey (restOf _) "id" then rget (restOf _) "id" else _) ::
    ("name", if hasKey (restOf _) "name" then rget (restOf _) "name" else _) ::
    ("thumbnail", .vstr (validateThumb (resolveThumbRaw _))) ::
    ("provider", if hasKey (restOf _) "provider" then rget (restOf _) "provider" else _) ::
    (restOf _).filter _ = _
  rw [hrest, hthv]
  simp [hasKey, rget, List.filter_cons]
  intro a b hab
  obtain ⟨g1, g2, _, g4, _⟩ := htail (a, b) hab
  simp [g1, g2, g4]

/-- Spec scenario: an invalid thumbnail string is discarded. -/
theorem normalizeGame_invalid_thumbnail_scenario :
    getThumbStr (normalizeGame (.vnum 0)
      [("thumbnail", .vstr "bad"),
       ("providerLogo", .vobj [("original", .vobj [("src", .vstr "/logo.png")])])]) = "" := by
  decide

/-- Spec scenario: a nested image object resolves to its URL. -/
theorem normalizeGame_nested_image_scenario :
    getThumbStr (normalizeGame (.vnum 0)
      [("name", .vstr "Wolf Gold"),
       ("image", .vobj [("original", .vobj [("url", .vstr "https://x/y.png")])])]) =
      "https://x/y.png" := by
  decide

/-- C3: for every raw upstream item (and any value of the random id fallback),
the normalized record's thumbnail field is a string that is either empty or
starts with "http" or starts with "/"; an invalid resolved thumbnail is cleared
to the empty string rather than kept. -/
theorem C3_thumbnail_invariant (rnd : JVal) (o : JObj) :
    ∃ s, rget (normalizeGame rnd o) "thumbnail" = .vstr s ∧
      (s = "" ∨ jsStartsWith s "http" = true ∨ jsStartsWith s "/" = true) :=
  ⟨validateThumb (resolveThumbRaw o), rfl, validateThumb_spec (resolveThumbRaw o)⟩

/-- C10: when the raw item carries its own `id`, `name`, or `provider` key, the
normalized record's field equals the raw value verbatim (the rest-spread is
written after the computed fields and overwrites them); the computed variants
take effect exactly when the raw key is absent. -/
theorem C10_passthrough_overrides_computed (rnd : JVal) (o : JObj) :
    rget (normalizeGame rnd o) "id" =
      (if hasKey o "id" then rget o "id" else .vstr (gameIdOf rnd o)) ∧
    rget (normalizeGame rnd o) "name" =
      (if hasKey o "name" then rget o "name" else .vstr (gameNameOf o)) ∧
    rget (normalizeGame rnd o) "provider" =
      (if hasKey o "provider" then rget o "provider" else gameProviderOf o) := by
  refine ⟨?_, ?_, ?_⟩
  · have e : rget (normalizeGame rnd o) "id" =
        (if hasKey (restOf o) "id" then rget (restOf o) "id"
          else .vstr (gameIdOf rnd o)) := rfl
    rw [e, hasKey_restOf o "id" (by decide) (by decide),
      rget_restOf o "id" (by decide) (by decide)]
  · have e : rget (normalizeGame rnd o) "name" =
        (if hasKey (restOf o) "name" then rget (restOf o) "name"
          else .vstr (gameNameOf o)) := rfl
    rw [e, hasKey_restOf o "name" (by decide) (by decide),
      rget_restOf o "name" (by decide) (by decide)]
  · have e : rget (normalizeGame rnd o) "provider" =
        (if hasKey (restOf o) "provider" then rget (restOf o) "provider"
          else gameProviderOf o) := rfl
    rw [e, hasKey_restOf o "provider" (by decide) (by decide),
      rget_restOf o "provider" (by decide) (by decide)]

/-- C9 counterexample: normalization is not idempotent.  For the raw item
`{thumbnail: "bad", providerLogo: {original: {src: "/logo.png"}}}` the first
pass resolves the invalid string "bad" and clears it to "", never consulting
the providerLogo fallback; renormalizing the output finds the empty thumbnail
and resurrects "/logo.png" from the passed-through providerLogo, so the second
pass differs from the first. -/
theorem C9_counterexample :
    getThumbStr (normalizeGame (.vnum 0)
      [("thumbnail", .vstr "bad"),
       ("providerLogo", .vobj [("original", .vobj [("src", .vstr "/logo.png")])])]) = "" ∧
    getThumbStr (normalizeGame (.vnum 0) (normalizeGame (.vnum 0)
      [("thumbnail", .vstr "bad"),
       ("providerLogo", .vobj [("original", .vobj [("src", .vstr "/logo.png")])])])) =
      "/logo.png" ∧
    normalizeGame (.vnum 0) (normalizeGame (.vnum 0)
      [("thumbnail", .vstr "bad"),
       ("providerLogo", .vobj [("original", .vobj [("src", .vstr "/logo.png")])])]) ≠
      normalizeGame (.vnum 0)
        [("thumbnail", .vstr "bad"),
         ("providerLogo", .vobj [("original", .vobj [("src", .vstr "/logo.png")])])] :=
  ⟨by decide, by decide, fun h => absurd (congrArg getThumbStr h) (by decide)⟩

/-- C9 (amended): applying the response normalizer to its own output yields an
identical record, except in the one situation exhibited by the counterexample:
renormalization is the identity whenever the first pass's thumbnail is
non-empty, or the providerLogo fallback of the normalized record does not
validate to a non-empty URL.  In particular a second pass never re-unwraps the
already-flat id, name or provider fields. -/
theorem C9_normalize_idempotent_amended (rnd1 rnd2 : JVal) (o : JObj)
    (h : getThumbStr (normalizeGame rnd1 o) ≠ "" ∨
      validateThumb (plCandidate (normalizeGame rnd1 o)) = "") :
    normalizeGame rnd2 (normalizeGame rnd1 o) = normalizeGame rnd1 o := by
  have htail : ∀ kv ∈ (restOf o).filter
      (fun kv => kv.1 ≠ "id" && kv.1 ≠ "name" && kv.1 ≠ "provider"),
      kv.1 ≠ "id" ∧ kv.1 ≠ "name" ∧ kv.1 ≠ "thumbnail" ∧
        kv.1 ≠ "provider" ∧ kv.1 ≠ "image" := by
    intro kv hkv
    obtain ⟨hrest, hq⟩ := List.mem_filter.mp hkv
    obtain ⟨_, hp⟩ := List.mem_filter.mp hrest
    simp only [Bool.and_eq_true, decide_eq_true_eq] at hq hp
    exact ⟨hq.1.1, hq.1.2, hp.2, hq.2, hp.1⟩
  exact normalizeGame_fixed rnd2
    (if hasKey (restOf o) "id" then rget (restOf o) "id" else .vstr (gameIdOf rnd1 o))
    (if hasKey (restOf o) "name" then rget (restOf o) "name" else .vstr (gameNameOf o))
    (if hasKey (restOf o) "provider" then rget (restOf o) "provider" else gameProviderOf o)
    (validateThumb (resolveThumbRaw o))
    ((restOf o).filter (fun kv => kv.1 ≠ "id" && kv.1 ≠ "name" && kv.1 ≠ "provider"))
    htail (validateThumb_idem _) h

/-- C1 counterexample: the capability classification is not computed on the
resolved path for both flags.  For the bare-slug reference "casino" the
resolution produces "/casino" and then the canonical all-games endpoint, so
pagination support is true, yet search support — computed on the raw
reference — is false: the two flags disagree although the resolved path is the
canonical endpoint. -/
theorem C1_counterexample :
    supportsSearch ("casino".toList) = false ∧
    supportsPagination ("casino".toList) = true ∧
    resolveCategoryPath ("casino".toList) = "/en/games/tiles".toList :=
  ⟨by decide, by decide, by decide⟩

/-- C1 (amended): search support is computed on the raw reference and
pagination support on the resolved path, so the two flags can disagree on
references that are not slash-prefixed canonical forms (for example the bare
slug "casino").  For every reference that starts with "/" and does not start
with "/games/tiles", the two flags agree, and both are true exactly when the
reference contains "/en/games/tiles" or is one of the aliases "/casino",
"/pages/en/casino"; every other such (curated) path has both flags false. -/
theorem C1_classifier_agreement_amended (p : List Char)
    (h1 : ("/".toList).isPrefixOf p = true)
    (h2 : ("/games/tiles".toList).isPrefixOf p = false) :
    supportsSearch p = supportsPagination p ∧
    (supportsSearch p = true ↔
      (containsSeq ("/en/games/tiles".toList) p = true ∨
        p = "/casino".toList ∨ p = "/pages/en/casino".toList)) := by
  obtain ⟨q, rfl⟩ : ∃ q, p = '/' :: q := by
    cases p with
    | nil => simp [List.isPrefixOf] at h1
    | cons c q =>
      refine ⟨q, ?_⟩
      simp [List.isPrefixOf] at h1
      rw [h1]
  by_cases hcb : (('/' :: q) == "/casino".toList) = true
  · rw [beq_iff_eq.mp hcb]; exact ⟨by decide, by decide⟩
  by_cases hpb : (('/' :: q) == "/pages/en/casino".toList) = true
  · rw [beq_iff_eq.mp hpb]; exact ⟨by decide, by decide⟩
  have hcb' : (('/' :: q) == "/casino".toList) = false := by
    cases hx : (('/' :: q) == "/casino".toList) with
    | true => exact absurd hx hcb
    | false => rfl
  have hpb' : (('/' :: q) == "/pages/en/casino".toList) = false := by
    cases hx : (('/' :: q) == "/pages/en/casino".toList) with
    | true => exact absurd hx hpb
    | false => rfl
  have hfinish : supportsPagination ('/' :: q) =
      containsSeq ("/en/games/tiles".toList) ('/' :: q) →
      supportsSearch ('/' :: q) = supportsPagination ('/' :: q) ∧
      (supportsSearch ('/' :: q) = true ↔
        (containsSeq ("/en/games/tiles".toList) ('/' :: q) = true ∨
          ('/' :: q) = "/casino".toList ∨ ('/' :: q) = "/pages/en/casino".toList)) := by
    intro hpag
    have hsearch : supportsSearch ('/' :: q) =
        containsSeq ("/en/games/tiles".toList) ('/' :: q) := by
      simp only [supportsSearch]
      rw [hcb', hpb']
      simp only [Bool.or_false]
    refine ⟨by rw [hsearch, hpag], ?_⟩
    rw [hsearch]
    constructor
    · exact fun hy => Or.inl hy
    · rintro (hy | hy | hy)
      · exact hy
      · exfalso; rw [hy] at hcb'; simp at hcb'
      · exfalso; rw [hy] at hpb'; simp at hpb'
  have hres : resolveCategoryPath ('/' :: q) =
      (if (!(("/pages/en".toList).isPrefixOf ('/' :: q)) &&
          !(("/en/games/tiles".toList).isPrefixOf ('/' :: q))) = true then
        "/pages/en".toList ++ ('/' :: q) else '/' :: q) := by
    simp only [resolveCategoryPath]
    have g1 : ¬ ((("http://".toList).isPrefixOf ('/' :: q) ||
        ("https://".toList).isPrefixOf ('/' :: q)) = true) := by
      simp [List.isPrefixOf]
    rw [if_neg g1]
    have g2 : ¬ ((!(("/".toList).isPrefixOf ('/' :: q))) = true) := by
      simp [List.isPrefixOf]
    rw [if_neg g2]
    have g3 : ¬ (((('/' :: q) == "/casino".toList) ||
        (('/' :: q) == "/pages/en/casino".toList)) = true) := by
      rw [hcb', hpb']; decide
    rw [if_neg g3]
  by_cases hpre : ((!(("/pages/en".toList).isPrefixOf ('/' :: q)) &&
      !(("/en/games/tiles".toList).isPrefixOf ('/' :: q))) = true)
  · have hres1 : resolveCategoryPath ('/' :: q) = "/pages/en".toList ++ ('/' :: q) := by
      rw [hres, if_pos hpre]
    have e2 : (("/pages/en".toList ++ ('/' :: q)) == "/casino".toList) = false := by
      rw [beq_eq_false_iff_ne]
      intro hcontra
      have hl := congrArg List.length hcontra
      simp [List.length_append] at hl
    have e3 : (("/pages/en".toList ++ ('/' :: q)) == "/pages/en/casino".toList) = false := by
      rw [beq_eq_false_iff_ne]
      intro hcontra
      rw [show ("/pages/en/casino".toList : List Char) =
        "/pages/en".toList ++ "/casino".toList from rfl] at hcontra
      have hb := beq_iff_eq.mpr (List.append_cancel_left hcontra)
      rw [hcb'] at hb
      exact absurd hb (by decide)
    have e1 : containsSeq ("/en/games/tiles".toList) ("/pages/en".toList ++ ('/' :: q)) =
        (("/games/tiles".toList).isPrefixOf ('/' :: q) ||
          containsSeq ("/en/games/tiles".toList) ('/' :: q)) := rfl
    refine hfinish ?_
    simp only [supportsPagination]
    rw [hres1, e1, h2, e2, e3]
    simp only [Bool.false_or, Bool.or_false]
  · have hres1 : resolveCategoryPath ('/' :: q) = '/' :: q := by
      rw [hres, if_neg hpre]
    refine hfinish ?_
    simp only [supportsPagination]
    rw [hres1, hcb', hpb']
    simp only [Bool.or_false]

/-- C1 witness: the amended classifier agreement applied to the curated
category path "/pages/en/casino/new-games", where both flags are false. -/
theorem C1_witness :
    supportsSearch ("/pages/en/casino/new-games".toList) =
      supportsPagination ("/pages/en/casino/new-games".toList) ∧
    (supportsSearch ("/pages/en/casino/new-games".toList) = true ↔
      (containsSeq ("/en/games/tiles".toList) ("/pages/en/casino/new-games".toList) = true ∨
        "/pages/en/casino/new-games".toList = "/casino".toList ∨
        "/pages/en/casino/new-games".toList = "/pages/en/casino".toList)) :=
  C1_classifier_agreement_amended ("/pages/en/casino/new-games".toList)
    (by decide) (by decide)

/-- C9 witness: a concrete run of the amended idempotence theorem, on a raw
item whose normalized thumbnail is a valid non-empty URL. -/
theorem C9_witness :
    normalizeGame (.vnum 0) (normalizeGame (.vnum 0)
      [("id", .vstr "g1"), ("name", .vstr "Wolf Gold"),
       ("thumbnail", .vstr "https://x/y.png"), ("provider", .vstr "ACME")]) =
      normalizeGame (.vnum 0)
        [("id", .vstr "g1"), ("name", .vstr "Wolf Gold"),
         ("thumbnail", .vstr "https://x/y.png"), ("provider", .vstr "ACME")] :=
  C9_normalize_idempotent_amended (.vnum 0) (.vnum 0) _ (Or.inl (by decide))

/-- C2: when a category fetch succeeds under the Redux-Toolkit reducer, the
requested page size (the `meta.arg` page size, falling back to the state's) is
compared with the page size recorded in state: strictly larger appends the
response's games with already-present ids dropped, equal or smaller replaces
the items wholesale. -/
theorem C2_append_vs_replace (state : GamesState) (games : List GameTile)
    (tc pn : Nat) (metaPageSize : Option Nat) :
    (jsOrNat metaPageSize state.pageSize > state.pageSize →
      (categoryFulfilledToolkit state games tc pn metaPageSize).items =
        mergeLoadMore state.items games) ∧
    (jsOrNat metaPageSize state.pageSize ≤ state.pageSize →
      (categoryFulfilledToolkit state games tc pn metaPageSize).items = games) := by
  constructor
  · intro h
    simp [categoryFulfilledToolkit, h]
  · intro h
    have h2 : ¬(jsOrNat metaPageSize state.pageSize > state.pageSize) := Nat.not_lt.mpr h
    simp [categoryFulfilledToolkit, h2]

/-- C2 witness: a larger requested size (20 over 10) appends with dedupe; an
equal requested size (10) replaces. -/
theorem C2_witness :
    (categoryFulfilledToolkit
        { initialGamesState with items := [⟨"1", "A", "", none⟩], pageSize := 10 }
        [⟨"1", "A2", "", none⟩, ⟨"2", "B", "", none⟩] 5 1 (some 20)).items =
      [⟨"1", "A", "", none⟩, ⟨"2", "B", "", none⟩] ∧
    (categoryFulfilledToolkit
        { initialGamesState with items := [⟨"1", "A", "", none⟩], pageSize := 10 }
        [⟨"2", "B", "", none⟩] 5 1 (some 10)).items = [⟨"2", "B", "", none⟩] :=
  ⟨((C2_append_vs_replace
      { initialGamesState with items := [⟨"1", "A", "", none⟩], pageSize := 10 }
      [⟨"1", "A2", "", none⟩, ⟨"2", "B", "", none⟩] 5 1 (some 20)).1
        (by decide)).trans (by decide),
   ((C2_append_vs_replace
      { initialGamesState with items := [⟨"1", "A", "", none⟩], pageSize := 10 }
      [⟨"2", "B", "", none⟩] 5 1 (some 10)).2 (by decide)).trans (by decide)⟩

/-- C8 counterexample: the "load more" merge deduplicates only against the ids
already in the current items, not within the response itself.  A response that
repeats a fresh id (here "a" twice) merged into a duplicate-free item list
(here the empty list) yields duplicate ids in the merged list. -/
theorem C8_counterexample :
    (([] : List GameTile).map (fun x => x.id)).Nodup ∧
    ¬((mergeLoadMore [] [⟨"a", "G1", "", none⟩, ⟨"a", "G2", "", none⟩]).map
      (fun x => x.id)).Nodup :=
  ⟨by decide, by decide⟩

/-- C8 (amended): provided the current items' ids are pairwise distinct AND the
response's own ids are pairwise distinct, the merged list contains no duplicate
ids, even when the response repeats ids already present in the items. -/
theorem C8_dedup_amended (items newGames : List GameTile)
    (h1 : (items.map (fun x => x.id)).Nodup)
    (h2 : (newGames.map (fun x => x.id)).Nodup) :
    ((mergeLoadMore items newGames).map (fun x => x.id)).Nodup := by
  unfold mergeLoadMore
  rw [List.map_append, List.nodup_append]
  refine ⟨h1, ((List.filter_sublist newGames).map (fun x => x.id)).nodup h2, ?_⟩
  intro a ha hb
  obtain ⟨g, hgmem, hgid⟩ := List.mem_map.mp hb
  obtain ⟨_, hpred⟩ := List.mem_filter.mp hgmem
  rw [Bool.not_eq_true'] at hpred
  rw [hgid] at hpred
  have hmem : (items.map (fun x => x.id)).contains a = true := by
    rw [List.contains_eq_any_beq]
    exact List.any_eq_true.mpr ⟨a, ha, by simp⟩
  rw [hmem] at hpred
  exact absurd hpred (by decide)

/-- C8 witness: the amended dedup law on a concrete overlap — the response
repeats id "1" already present in the items, yet the merge has distinct ids. -/
theorem C8_witness :
    ((mergeLoadMore [⟨"1", "A", "", none⟩]
      [⟨"1", "A2", "", none⟩, ⟨"2", "B", "", none⟩]).map (fun x => x.id)).Nodup :=
  C8_dedup_amended [⟨"1", "A", "", none⟩]
    [⟨"1", "A2", "", none⟩, ⟨"2", "B", "", none⟩] (by decide) (by decide)

/-- C4 counterexample: the orchestrator keeps no last-query key.  Two
consecutive invocations with the identical (category, search, pageNumber,
pageSize) tuple — here the all-games endpoint queried twice with page 1, size
10, no search, the second run starting from the state the first run produced —
issue one `fetchCategoryGames` request each: two network calls, not one. -/
theorem C4_counterexample :
    ((runFetchGamesByCategory ("/en/games/tiles".toList) ⟨none, some 1, some 10⟩
        initialGamesState ⟨[⟨"1", "G", "", none⟩], 1, 1, 10⟩).1 ++
      (runFetchGamesByCategory ("/en/games/tiles".toList) ⟨none, some 1, some 10⟩
        (runFetchGamesByCategory ("/en/games/tiles".toList) ⟨none, some 1, some 10⟩
          initialGamesState ⟨[⟨"1", "G", "", none⟩], 1, 1, 10⟩).2
        ⟨[⟨"1", "G", "", none⟩], 1, 1, 10⟩).1).length = 2 ∧
    ((runFetchGamesByCategory ("/en/games/tiles".toList) ⟨none, some 1, some 10⟩
        initialGamesState ⟨[⟨"1", "G", "", none⟩], 1, 1, 10⟩).1 ++
      (runFetchGamesByCategory ("/en/games/tiles".toList) ⟨none, some 1, some 10⟩
        (runFetchGamesByCategory ("/en/games/tiles".toList) ⟨none, some 1, some 10⟩
          initialGamesState ⟨[⟨"1", "G", "", none⟩], 1, 1, 10⟩).2
        ⟨[⟨"1", "G", "", none⟩], 1, 1, 10⟩).1).length ≠ 1 :=
  ⟨by decide, by decide⟩

/-- C4 (amended): every invocation of the `fetchGamesByCategory` thunk issues
exactly one upstream request, unconditionally — the code maintains no
idempotency key, so consecutive invocations with an identical query tuple issue
two network calls (duplicate suppression exists only in the component layer's
effect dependencies). -/
theorem C4_every_invocation_fetches (u : List Char) (params : GamesTilesParams)
    (s : GamesState) (r1 r2 : GamesTilesResponse) :
    (runFetchGamesByCategory u params s r1).1.length = 1 ∧
    ((runFetchGamesByCategory u params s r1).1 ++
      (runFetchGamesByCategory u params
        (runFetchGamesByCategory u params s r1).2 r2).1).length = 2 :=
  ⟨rfl, rfl⟩

/-- C7 counterexample: with a non-empty trimmed search ("wolf") on an endpoint
without search support, the orchestrator inflates the page size to 200 and
omits the search parameter, but it does NOT request page 1: the caller's page
number (2) is passed through. -/
theorem C7_counterexample :
    supportsSearch ("/pages/en/casino/new-games".toList) = false ∧
    (buildFetchParams ("/pages/en/casino/new-games".toList)
      ⟨some "wolf", some 2, some 10⟩ initialGamesState).pageSize = 200 ∧
    (buildFetchParams ("/pages/en/casino/new-games".toList)
      ⟨some "wolf", some 2, some 10⟩ initialGamesState).search = none ∧
    (buildFetchParams ("/pages/en/casino/new-games".toList)
      ⟨some "wolf", some 2, some 10⟩ initialGamesState).pageNumber = 2 :=
  ⟨by decide, by decide, by decide, by decide⟩

/-- C7 (amended): whenever the trimmed search text is non-empty and the
endpoint does not support server-side search, the orchestrator requests page
size 200 and omits the search parameter; otherwise it requests the caller's
page size, passing the search term through exactly when the endpoint supports
it.  In every case the requested page number is the caller's, falling back to
the state's and then to 1 — page 1 is never forced. -/
theorem C7_fetch_params_amended (u : List Char) (params : GamesTilesParams)
    (s : GamesState) :
    (buildFetchParams u params s).pageSize =
      (if 0 < (jsTrim (effectiveSearchQuery params s)).length ∧ supportsSearch u = false
        then 200 else basePageSizeOf params s) ∧
    (buildFetchParams u params s).search =
      (if 0 < (jsTrim (effectiveSearchQuery params s)).length ∧ supportsSearch u = true
        then some (effectiveSearchQuery params s) else none) ∧
    (buildFetchParams u params s).pageNumber =
      jsOrNat params.pageNumber (jsOrNat0 s.pageNumber 1) := by
  by_cases h1 : 0 < (jsTrim (effectiveSearchQuery params s)).length <;>
    by_cases h2 : supportsSearch u = true <;>
      simp [buildFetchParams, h1, h2]

/-- C5 counterexample: without an active search the projector's page length is
governed by the items on hand, not the recorded total.  A state holding
exactly one page of 10 items with an upstream total of 95 at the last valid
page (10 of 10) returns all 10 items unsliced, but the claimed formula
`min(pageSize, totalCount - (pageNumber-1)*pageSize)` demands 5. -/
theorem C5_counterexample :
    1 ≤ (10 : Nat) ∧
    10 ≤ (selectGamesWithPagination
      { items := List.replicate 10 ⟨"1", "g", "", none⟩, loading := false, error := none,
        searchQuery := "", pageNumber := 10, pageSize := 10, totalCount := 95 }).totalPages ∧
    (selectGamesWithPagination
      { items := List.replicate 10 ⟨"1", "g", "", none⟩, loading := false, error := none,
        searchQuery := "", pageNumber := 10, pageSize := 10, totalCount := 95 }).games.length ≠
      min 10 (95 - (10 - 1) * 10) :=
  ⟨by decide, by decide, by decide⟩

/-- C5 (amended): the pagination-consistency formula holds whenever the
projected total equals the number of filtered items on hand — in particular
whenever search is active, where the projector reports the filtered length as
its total.  For every state with positive page size, active search, and a
valid pageNumber in [1, totalPages], the projected page length equals
`min(pageSize, projectedTotal - (pageNumber-1)*pageSize)`; the projector
slices exactly when the filtered items exceed the page size and returns them
unsliced otherwise. -/
theorem C5_pagination_amended (s : GamesState)
    (hps : 0 < s.pageSize)
    (hsearch : 0 < (jsTrim s.searchQuery).length)
    (hp1 : 1 ≤ s.pageNumber)
    (hp2 : s.pageNumber ≤ (selectGamesWithPagination s).totalPages) :
    (selectGamesWithPagination s).games.length =
      min s.pageSize
        ((selectGamesWithPagination s).totalCount - (s.pageNumber - 1) * s.pageSize) ∧
    ((filteredGamesOf s).length > s.pageSize →
      (selectGamesWithPagination s).games =
        ((filteredGamesOf s).drop ((s.pageNumber - 1) * s.pageSize)).take s.pageSize) ∧
    ((filteredGamesOf s).length ≤ s.pageSize →
      (selectGamesWithPagination s).games = filteredGamesOf s) := by
  have htc : (selectGamesWithPagination s).totalCount = (filteredGamesOf s).length := by
    simp [selectGamesWithPagination, hsearch]
  by_cases hcl : (filteredGamesOf s).length > s.pageSize
  · have hg : (selectGamesWithPagination s).games =
        ((filteredGamesOf s).drop ((s.pageNumber - 1) * s.pageSize)).take s.pageSize := by
      simp [selectGamesWithPagination, hcl]
    refine ⟨?_, fun _ => hg, fun hle => absurd hcl (Nat.not_lt.mpr hle)⟩
    rw [hg, htc, List.length_take, List.length_drop]
  · have hle : (filteredGamesOf s).length ≤ s.pageSize := Nat.not_lt.mp hcl
    have hg : (selectGamesWithPagination s).games = filteredGamesOf s := by
      simp [selectGamesWithPagination, hcl]
    have htp : (selectGamesWithPagination s).totalPages =
        jsOrNat0 (jsCeilDiv (filteredGamesOf s).length s.pageSize) 1 := by
      simp [selectGamesWithPagination, hsearch, hcl]
    have hceil : jsCeilDiv (filteredGamesOf s).length s.pageSize ≤ 1 := by
      unfold jsCeilDiv
      have hlt : ((filteredGamesOf s).length + s.pageSize - 1) / s.pageSize < 2 := by
        rw [Nat.div_lt_iff_lt_mul hps]
        omega
      omega
    have hpn1 : s.pageNumber = 1 := by
      rw [htp] at hp2
      unfold jsOrNat0 at hp2
      by_cases hc0 : jsCeilDiv (filteredGamesOf s).length s.pageSize = 0
      · rw [if_pos hc0] at hp2; omega
      · rw [if_neg hc0] at hp2; omega
    refine ⟨?_, fun hgt => absurd hgt hcl, fun _ => hg⟩
    rw [hg, htc, hpn1]
    simp
    omega

/-- C5 witness: the amended pagination consistency on a concrete search-active
state — three matches for "a", page 2 of size 2 yields one item, and
`min(2, 3-2) = 1`. -/
theorem C5_witness :
    (selectGamesWithPagination
      { items := [⟨"1", "alpha", "", none⟩, ⟨"2", "beta", "", none⟩,
          ⟨"3", "gamma", "", none⟩], loading := false, error := none,
        searchQuery := "a", pageNumber := 2, pageSize := 2, totalCount := 99 }).games.length =
      min 2 ((selectGamesWithPagination
      { items := [⟨"1", "alpha", "", none⟩, ⟨"2", "beta", "", none⟩,
          ⟨"3", "gamma", "", none⟩], loading := false, error := none,
        searchQuery := "a", pageNumber := 2, pageSize := 2, totalCount := 99 }).totalCount -
        (2 - 1) * 2) :=
  (C5_pagination_amended
    { items := [⟨"1", "alpha", "", none⟩, ⟨"2", "beta", "", none⟩,
        ⟨"3", "gamma", "", none⟩], loading := false, error := none,
      searchQuery := "a", pageNumber := 2, pageSize := 2, totalCount := 99 }
    (by decide) (by decide) (by decide) (by decide)).1

/-- C6: under the retry policy with maxRetries = 3, if the first k ≤ 3
attempts fail and attempt k+1 succeeds, the caller receives the success and no
error; if all four attempts fail, the final attempt's error propagates with no
further delay; the delays slept between attempts double from the initial value
and are capped at the configured maximum. -/
theorem C6_retry_policy {α : Type} (fn : Nat → Except String α)
    (initialDelay maxDelay : Nat) :
    (∀ (k : Nat) (a : α), k ≤ 3 →
      (∀ i, i < k → ∃ e, fn i = Except.error e) → fn k = Except.ok a →
      retryWithBackoff fn 3 initialDelay maxDelay =
        (Except.ok a, (List.range k).map (fun i => min (initialDelay * 2 ^ i) maxDelay))) ∧
    (∀ e3, (∀ i, i < 3 → ∃ e, fn i = Except.error e) → fn 3 = Except.error e3 →
      retryWithBackoff fn 3 initialDelay maxDelay =
        (Except.error e3,
          (List.range 3).map (fun i => min (initialDelay * 2 ^ i) maxDelay))) := by
  constructor
  · intro k a hk hfail hok
    interval_cases k
    · simp [retryWithBackoff, retryGo, hok]
    · obtain ⟨e0, he0⟩ := hfail 0 (by omega)
      simp [retryWithBackoff, retryGo, he0, hok, List.range_succ]
    · obtain ⟨e0, he0⟩ := hfail 0 (by omega)
      obtain ⟨e1, he1⟩ := hfail 1 (by omega)
      simp [retryWithBackoff, retryGo, he0, he1, hok, List.range_succ]
    · obtain ⟨e0, he0⟩ := hfail 0 (by omega)
      obtain ⟨e1, he1⟩ := hfail 1 (by omega)
      obtain ⟨e2, he2⟩ := hfail 2 (by omega)
      simp [retryWithBackoff, retryGo, he0, he1, he2, hok, List.range_succ]
  · intro e3 hfail herr
    obtain ⟨e0, he0⟩ := hfail 0 (by omega)
    obtain ⟨e1, he1⟩ := hfail 1 (by omega)
    obtain ⟨e2, he2⟩ := hfail 2 (by omega)
    simp [retryWithBackoff, retryGo, he0, he1, he2, herr, List.range_succ]

/-- C6 witness: two failures then a success yield the success with delays
[1000, 2000]; four failures yield the last error with delays capped at
[1000, 2000, 4000]. -/
theorem C6_witness :
    retryWithBackoff (fun i => if i < 2 then Except.error "boom" else Except.ok 7)
      3 1000 10000 = (Except.ok 7, [1000, 2000]) ∧
    retryWithBackoff (fun _ => (Except.error "dead" : Except String Nat))
      3 1000 10000 = (Except.error "dead", [1000, 2000, 4000]) := by
  constructor
  · rw [(C6_retry_policy (fun i => if i < 2 then Except.error "boom" else Except.ok 7)
      1000 10000).1 2 7 (by omega)
      (fun i hi => ⟨"boom", by rw [if_pos hi]⟩) (by rw [if_neg (by omega)])]
    rfl
  · rw [(C6_retry_policy (fun _ => (Except.error "dead" : Except String Nat))
      1000 10000).2 "dead" (fun i _ => ⟨"dead", rfl⟩) rfl]
    rfl
